import Mathlib

/-!
Shallow embedding of the hook / plugin / marketplace subsystem of the
langcode repository (src/langcode/hooks, src/langcode/plugins,
src/langcode/core/config.py), together with theorems settling the frozen
claims about it.

External effects (subprocess execution, JSON text parsing by json.loads,
filesystem reads, git clones, the interactive prompt) are modelled as
explicit oracle parameters; every pure computation is translated directly
from the Python source, with the source file and function named in each
doc comment.
-/

namespace Langcode

/-- Generic JSON value, the model of Python dict/list/str/int/bool/None data
as produced by json.loads.  Objects are insertion-ordered association lists,
matching Python dict ordering.  Numbers are modelled as integers (no claim
involves floats). -/
inductive J where
  | null : J
  | bool (b : Bool) : J
  | num (n : Int) : J
  | str (s : String) : J
  | arr (xs : List J) : J
  | obj (fields : List (String × J)) : J
deriving Repr

/-- First-match lookup in an association list: the model of Python
dict indexing / dict.get on a dict with unique keys. -/
def lookupJ (fields : List (String × J)) (k : String) : Option J :=
  match fields with
  | [] => none
  | (k', v) :: rest => if k' = k then some v else lookupJ rest k

/-- Replace the first binding of a key, or append the binding if the key is
absent: the model of a single Python dict item assignment (insertion order
preserved, existing keys updated in place). -/
def setKey (fields : List (String × J)) (k : String) (v : J) : List (String × J) :=
  match fields with
  | [] => [(k, v)]
  | (k', v') :: rest => if k' = k then (k, v) :: rest else (k', v') :: setKey rest k v

/-- Model of Python dict.update: each override item assigned in order. -/
def dictUpdate (base override : List (String × J)) : List (String × J) :=
  override.foldl (fun acc kv => setKey acc kv.1 kv.2) base

/-- Python truthiness of a JSON value: None, False, 0, "", [], and an empty
object are falsy, everything else truthy. -/
def jTruthy : J → Bool
  | J.null => false
  | J.bool b => b
  | J.num n => n != 0
  | J.str s => s ≠ ""
  | J.arr xs => !xs.isEmpty
  | J.obj fs => !fs.isEmpty

/-- Model of Python str() restricted to the value shapes that can reach the
middleware's FILE variable; string values pass through unchanged, which is
the only case the claims exercise. -/
def jToPyStr : J → String
  | J.null => "None"
  | J.bool b => if b then "True" else "False"
  | J.num n => toString n
  | J.str s => s
  | J.arr _ => "<list>"
  | J.obj _ => "<dict>"

/-! ## Hook data model — src/langcode/hooks/models.py -/

/-- HookDef from hooks/models.py: a single hook action, either a shell
command or a prompt message. -/
structure HookDef where
  type : String
  command : String := ""
  prompt : String := ""
  timeout : Int := 30
deriving Repr

/-- HookRule from hooks/models.py: a matcher plus the hooks that fire when
the matcher matches.  The compiled-pattern cache of the source is dropped:
it only memoises re.compile and does not change observable behaviour. -/
structure HookRule where
  matcher : String
  hooks : List HookDef := []
deriving Repr

/-- Oracle for Python's re module: compile returns the search predicate of a
pattern when compilation succeeds (re.compile with no flags), none when the
pattern raises re.error. -/
structure ReModel where
  compile : String → Option (String → Bool)

/-- HookRule.matches from hooks/models.py, relative to a re oracle:
"*" matches everything; otherwise the compiled regex is search-matched
against the value; if compilation fails the matcher must equal the value
literally. -/
def ruleMatches (R : ReModel) (matcher value : String) : Bool :=
  if matcher = "*" then true
  else
    match R.compile matcher with
    | some search => search value
    | none => matcher = value

/-- HOOK_EVENTS from hooks/models.py: the nine lifecycle events. -/
def HOOK_EVENTS : List String :=
  ["PreToolUse", "PostToolUse", "Stop", "SubagentStop", "SessionStart",
   "SessionEnd", "UserPromptSubmit", "PreCompact", "Notification"]

/-- HooksConfig from hooks/models.py: all hook rules grouped by event. -/
structure HooksConfig where
  PreToolUse : List HookRule := []
  PostToolUse : List HookRule := []
  Stop : List HookRule := []
  SubagentStop : List HookRule := []
  SessionStart : List HookRule := []
  SessionEnd : List HookRule := []
  UserPromptSubmit : List HookRule := []
  PreCompact : List HookRule := []
  Notification : List HookRule := []
deriving Repr

/-- HooksConfig.get_rules: getattr(self, event, []) over the nine fields. -/
def HooksConfig.get_rules (cfg : HooksConfig) (event : String) : List HookRule :=
  if event = "PreToolUse" then cfg.PreToolUse
  else if event = "PostToolUse" then cfg.PostToolUse
  else if event = "Stop" then cfg.Stop
  else if event = "SubagentStop" then cfg.SubagentStop
  else if event = "SessionStart" then cfg.SessionStart
  else if event = "SessionEnd" then cfg.SessionEnd
  else if event = "UserPromptSubmit" then cfg.UserPromptSubmit
  else if event = "PreCompact" then cfg.PreCompact
  else if event = "Notification" then cfg.Notification
  else []

/-- HooksConfig.merge: per-event list.extend of the other config's rules.
The source mutates self in place; the embedding returns the post-state of
self. -/
def HooksConfig.merge (cfg other : HooksConfig) : HooksConfig where
  PreToolUse := cfg.PreToolUse ++ other.PreToolUse
  PostToolUse := cfg.PostToolUse ++ other.PostToolUse
  Stop := cfg.Stop ++ other.Stop
  SubagentStop := cfg.SubagentStop ++ other.SubagentStop
  SessionStart := cfg.SessionStart ++ other.SessionStart
  SessionEnd := cfg.SessionEnd ++ other.SessionEnd
  UserPromptSubmit := cfg.UserPromptSubmit ++ other.UserPromptSubmit
  PreCompact := cfg.PreCompact ++ other.PreCompact
  Notification := cfg.Notification ++ other.Notification

/-- HooksConfig.is_empty: no event has any rule. -/
def HooksConfig.is_empty (cfg : HooksConfig) : Bool :=
  HOOK_EVENTS.all (fun e => (cfg.get_rules e).length == 0)

/-! ## A concrete model of Python's re module

The source delegates matching to CPython's re.  The concrete model below
covers the fragment of the pattern language the claims exercise: a pattern
containing no regex metacharacter compiles, and its search finds the
pattern as a case-sensitive substring of the value (re.compile is called
with no flags in HookRule.matches, so searching is case-sensitive).
Patterns that do contain a metacharacter are outside the modelled fragment
and are mapped to compile failure; every theorem below instantiates this
model only at metacharacter-free patterns (or at "*", which the source
short-circuits before compiling), where it agrees with CPython. -/

/-- Characters that are special in Python regular expressions. -/
def regexMetaChars : List Char :=
  ['.', '^', '$', '*', '+', '?', '\x7b', '\x7d', '[', ']', '\\', '|', '(', ')']

/-- Bool-valued list-prefix test on characters. -/
def prefixChars : List Char → List Char → Bool
  | [], _ => true
  | _ :: _, [] => false
  | a :: as, b :: bs => a == b && prefixChars as bs

/-- Bool-valued substring test: the needle occurs contiguously in the hay. -/
def subChars (pat : List Char) : List Char → Bool
  | [] => prefixChars pat []
  | b :: bs => prefixChars pat (b :: bs) || subChars pat bs

/-- Search of a literal (metacharacter-free) pattern, as CPython's
re.search performs it: the pattern occurs as a substring. -/
def pySearchSub (pat hay : String) : Bool :=
  subChars pat.toList hay.toList

/-- The concrete re oracle described above. -/
def reLiteral : ReModel :=
  ⟨fun pat =>
    if pat.toList.all (fun c => !regexMetaChars.contains c) then
      some (fun v => pySearchSub pat v)
    else none⟩

/-- ASCII lower-casing of a character code, for stating what an IGNORECASE
search (the spec's reading) would do. -/
def lowerNat (c : Char) : Nat :=
  if 65 ≤ c.toNat ∧ c.toNat ≤ 90 then c.toNat + 32 else c.toNat

/-- Case-insensitive character equality. -/
def charCIEq (a b : Char) : Bool := lowerNat a == lowerNat b

/-- Case-insensitive list-prefix test. -/
def prefixCharsCI : List Char → List Char → Bool
  | [], _ => true
  | _ :: _, [] => false
  | a :: as, b :: bs => charCIEq a b && prefixCharsCI as bs

/-- Case-insensitive substring test. -/
def subCharsCI (pat : List Char) : List Char → Bool
  | [] => prefixCharsCI pat []
  | b :: bs => prefixCharsCI pat (b :: bs) || subCharsCI pat bs

/-- Modelled from the spec: the case-insensitive search of a literal
pattern that re.search would perform had the pattern been compiled with
re.IGNORECASE, as the spec asserts; the source compiles with no flags. -/
def pySearchSubCI (pat hay : String) : Bool :=
  subCharsCI pat.toList hay.toList

/-! ## Structural models of the Python str methods the subsystem calls
(str.strip, str.lower, str.startswith, str.replace).  Lean's built-in
String.trim / String.replace are defined by byte-position recursion the
kernel cannot evaluate, so the models below recurse structurally over the
character list instead. -/

/-- Python str.strip(): whitespace removed from both ends. -/
def pyStrip (s : String) : String :=
  String.mk ((((s.toList.dropWhile Char.isWhitespace).reverse).dropWhile
    Char.isWhitespace).reverse)

/-- Python str.lower() restricted to ASCII letters (every string the claims
exercise is ASCII). -/
def pyLower (s : String) : String :=
  String.mk (s.toList.map (fun c =>
    if 65 ≤ c.toNat ∧ c.toNat ≤ 90 then Char.ofNat (c.toNat + 32) else c))

/-- Python str.startswith for a single-prefix argument. -/
def pyStartsWith (s pre : String) : Bool :=
  prefixChars pre.toList s.toList

/-- Fuel-indexed engine of str.replace; the fuel is the subject's length,
always sufficient since every step consumes at least one character. -/
def replaceFuel : Nat → List Char → List Char → List Char → List Char
  | 0, s, _, _ => s
  | fuel + 1, s, old, new =>
    match s with
    | [] => []
    | c :: rest =>
      if !old.isEmpty && prefixChars old (c :: rest) then
        new ++ replaceFuel fuel ((c :: rest).drop old.length) old new
      else c :: replaceFuel fuel rest old new

/-- Python str.replace(old, new): every non-overlapping occurrence replaced
left to right (never called with an empty old in this subsystem). -/
def pyReplace (s old new : String) : String :=
  String.mk (replaceFuel s.toList.length s.toList old.toList new.toList)

/-! ## Hook config parsing — src/langcode/hooks/parser.py -/

/-- Model of Python re.escape (3.7+ semantics): ASCII letters, digits and
underscore pass through, every other character is backslash-escaped. -/
def reEscapeChar (c : Char) : String :=
  if c.isAlphanum || c == '_' then String.singleton c
  else "\\" ++ String.singleton c

/-- re.escape over a whole string. -/
def reEscape (s : String) : String :=
  s.toList.foldl (fun acc c => acc ++ reEscapeChar c) ""

/-- Split a string at its first colon, the model of str.split(":", 1) for a
string known to contain a colon (guarded by the ":" in key check). -/
def splitFirstColon (s : String) : String × String :=
  let pre := s.toList.takeWhile (fun c => c ≠ ':')
  let post := (s.toList.drop (pre.length + 1))
  (String.mk pre, String.mk post)

/-- Helper: string lookup with a string default, the model of
raw.get(key, default) restricted to string-valued fields (all fields the
claims exercise are strings). -/
def getStrD (fields : List (String × J)) (k : String) (dflt : String) : String :=
  match lookupJ fields k with
  | some (J.str s) => s
  | _ => dflt

/-- Helper: integer lookup with a default, for timeout fields. -/
def getIntD (fields : List (String × J)) (k : String) (dflt : Int) : Int :=
  match lookupJ fields k with
  | some (J.num n) => n
  | _ => dflt

/-- parse_hook_def from hooks/parser.py. -/
def parse_hook_def (raw : List (String × J)) : HookDef where
  type := getStrD raw "type" "command"
  command := getStrD raw "command" ""
  prompt := getStrD raw "prompt" ""
  timeout := getIntD raw "timeout" 30

/-- parse_hook_rule from hooks/parser.py.  The hooks field is iterated as a
list (a non-list value is outside the accepted shape and modelled as
absent). -/
def parse_hook_rule (raw : List (String × J)) : HookRule where
  matcher := getStrD raw "matcher" "*"
  hooks :=
    match lookupJ raw "hooks" with
    | some (J.arr hs) =>
        hs.filterMap (fun h => match h with
          | J.obj fs => some (parse_hook_def fs)
          | _ => none)
    | _ => []

/-- Rules of one event entry: the list value filtered to dict entries, as in
parse_hooks_config's comprehension. -/
def parseEventRules (data : List (String × J)) (event : String) : List HookRule :=
  match lookupJ data event with
  | some (J.arr rs) =>
      rs.filterMap (fun r => match r with
        | J.obj fs => some (parse_hook_rule fs)
        | _ => none)
  | _ => []

/-- parse_hooks_config from hooks/parser.py: unwraps a nested hooks object
when it contains at least one event key, then collects each event's rule
list. -/
def parse_hooks_config (data : List (String × J)) : HooksConfig :=
  let data :=
    match lookupJ data "hooks" with
    | some (J.obj inner) =>
        if HOOK_EVENTS.any (fun e => (lookupJ inner e).isSome) then inner else data
    | _ => data
  { PreToolUse := parseEventRules data "PreToolUse"
    PostToolUse := parseEventRules data "PostToolUse"
    Stop := parseEventRules data "Stop"
    SubagentStop := parseEventRules data "SubagentStop"
    SessionStart := parseEventRules data "SessionStart"
    SessionEnd := parseEventRules data "SessionEnd"
    UserPromptSubmit := parseEventRules data "UserPromptSubmit"
    PreCompact := parseEventRules data "PreCompact"
    Notification := parseEventRules data "Notification" }

/-- convert_legacy_hooks from hooks/parser.py: each "pre:<tool>" key adds a
PreToolUse rule (with the reserved confirm sentinel substituted for the
value "confirm"), each "post:<tool>" key adds a PostToolUse rule; keys
without a colon are skipped.  The legacy dict is modelled as an ordered
association list of string values. -/
def convert_legacy_hooks (legacy : List (String × String)) : HooksConfig :=
  legacy.foldl
    (fun cfg kv =>
      let key := kv.1
      let value := kv.2
      if key.toList.contains ':' then
        let pt := splitFirstColon key
        if pt.1 = "pre" then
          { cfg with PreToolUse := cfg.PreToolUse ++
              [{ matcher := reEscape pt.2,
                 hooks := [{ type := "command",
                             command := if value = "confirm" then "__confirm__" else value }] }] }
        else if pt.1 = "post" then
          { cfg with PostToolUse := cfg.PostToolUse ++
              [{ matcher := reEscape pt.2,
                 hooks := [{ type := "command", command := value }] }] }
        else cfg
      else cfg)
    {}

/-! ## Hook execution engine — src/langcode/hooks/engine.py -/

/-- HookResult from hooks/engine.py: the combined outcome of executing the
hooks of one event.  updated_input is restricted to object values, and the
string-typed fields to string values, matching the dataclass annotations
(the JSON protocol only ever supplies those shapes). -/
structure HookResult where
  permission : String := "allow"
  updated_input : Option (List (String × J)) := none
  decision : String := "approve"
  reason : String := ""
  messages : List String := []
deriving Repr

/-- Behaviour of subprocess.run on one command: normal completion with an
exit code and captured stdout/stderr, a TimeoutExpired, or another spawn
exception carrying its message. -/
inductive SubprocessBehavior where
  | completes (returncode : Int) (stdout stderr : String) : SubprocessBehavior
  | timesOut : SubprocessBehavior
  | raisesError (msg : String) : SubprocessBehavior

/-- Oracle mapping a fully substituted command string to what running it
does. -/
def World : Type := String → SubprocessBehavior

/-- The variable substitution of run_command_hook: ${CLAUDE_PLUGIN_ROOT} is
replaced first when that variable is present, then every variable k has its
$k token literally replaced, in dict order. -/
def substituteVars (command : String) (vars : List (String × String)) : String :=
  let cmd :=
    match vars.find? (fun kv => kv.1 == "CLAUDE_PLUGIN_ROOT") with
    | some kv => pyReplace command "${CLAUDE_PLUGIN_ROOT}" kv.2
    | none => command
  vars.foldl (fun c kv => pyReplace c ("$" ++ kv.1) kv.2) cmd

/-- run_command_hook from hooks/engine.py: substitute variables, run the
command, and catch TimeoutExpired (returning -1, "", "hook timed out") and
any other exception (returning -1, "", str(e)); it never raises. -/
def run_command_hook (world : World) (hook : HookDef) (vars : List (String × String)) :
    Int × String × String :=
  match world (substituteVars hook.command vars) with
  | SubprocessBehavior.completes rc out err => (rc, out, err)
  | SubprocessBehavior.timesOut => (-1, "", "hook timed out")
  | SubprocessBehavior.raisesError e => (-1, "", e)

/-- Oracle for json.loads restricted to its use in _parse_hook_output: the
input starts with an opening brace, so a successful parse yields a JSON
object (returned as its field list); none models json.JSONDecodeError. -/
def JParse : Type := String → Option (List (String × J))

/-- _parse_hook_output from hooks/engine.py: ignore stdout that is empty or
does not start with an opening brace, ignore unparsable JSON, otherwise
fold the structured protocol fields into the result.  Protocol values of
unexpected types (a non-object hookSpecificOutput, non-string decisions)
are outside the protocol and modelled as no-ops. -/
def parseHookOutput (jparse : JParse) (stdout : String) (res : HookResult) : HookResult :=
  if stdout = "" || !pyStartsWith stdout "\x7b" then res
  else
    match jparse stdout with
    | none => res
    | some data =>
      let res :=
        match lookupJ data "hookSpecificOutput" with
        | some (J.obj hso) =>
          if !hso.isEmpty then
            let res :=
              match lookupJ hso "permissionDecision" with
              | some (J.str p) => { res with permission := p }
              | _ => res
            match lookupJ hso "updatedInput" with
            | some (J.obj u) => { res with updated_input := some u }
            | _ => res
          else res
        | _ => res
      let res :=
        match lookupJ data "decision" with
        | some (J.str d) => { res with decision := d }
        | _ => res
      let res :=
        match lookupJ data "reason" with
        | some (J.str r) => { res with reason := r }
        | _ => res
      match lookupJ data "systemMessage" with
      | some (J.str m) => if m ≠ "" then { res with messages := res.messages ++ [m] } else res
      | _ => res

/-- One iteration of the inner hook loop of execute_hooks.  The state pairs
the HookResult under construction with the spawn log: the list of
substituted command strings passed to run_command_hook, recording exactly
which subprocesses were spawned. -/
def execHook (world : World) (jparse : JParse) (vars : List (String × String))
    (st : HookResult × List String) (hook : HookDef) : HookResult × List String :=
  let res := st.1
  let log := st.2
  if hook.type = "command" then
    if hook.command = "__confirm__" then
      ({ res with permission := "ask" }, log)
    else
      let cmd := substituteVars hook.command vars
      let r := run_command_hook world hook vars
      let exitCode := r.1
      let stdout := r.2.1
      let stderr := r.2.2
      let res :=
        if pyStrip stdout ≠ "" then { res with messages := res.messages ++ [pyStrip stdout] }
        else res
      let res :=
        if exitCode = 2 && pyStrip stderr ≠ "" then
          { res with messages := res.messages ++ [pyStrip stderr] }
        else res
      let res := parseHookOutput jparse (pyStrip stdout) res
      (res, log ++ [cmd])
  else if hook.type = "prompt" && hook.prompt ≠ "" then
    ({ res with messages := res.messages ++ [hook.prompt] }, log)
  else st

/-- One iteration of the outer rule loop of execute_hooks: non-matching
rules are skipped, matching rules run each of their hooks in order. -/
def execRule (R : ReModel) (world : World) (jparse : JParse) (matchValue : String)
    (vars : List (String × String)) (st : HookResult × List String) (rule : HookRule) :
    HookResult × List String :=
  if ruleMatches R rule.matcher matchValue then rule.hooks.foldl (execHook world jparse vars) st
  else st

/-- execute_hooks from hooks/engine.py, instrumented with the spawn log.
The source's HookResult return value is the first component; the second
component records the commands handed to run_command_hook. -/
def execute_hooks (R : ReModel) (world : World) (jparse : JParse) (cfg : HooksConfig)
    (event matchValue : String) (vars : List (String × String)) :
    HookResult × List String :=
  (cfg.get_rules event).foldl (execRule R world jparse matchValue vars) ({}, [])

/-! ## Tool-call policy middleware — src/langcode/hooks/middleware.py -/

/-- The parts of a ToolCallRequest the middleware reads: the tool name, the
argument bag, and the call id. -/
structure ToolCallRequest where
  name : String
  args : List (String × J)
  id : String
deriving Repr

/-- A ToolMessage as the middleware constructs one for a denial. -/
structure ToolMessage where
  content : String
  tool_call_id : String
deriving Repr, DecidableEq

/-- The file-path argument: args.get("file_path", "") or args.get("path", "")
with Python or-truthiness. -/
def mwFileVal (args : List (String × J)) : J :=
  let fp := (lookupJ args "file_path").getD (J.str "")
  if jTruthy fp then fp else (lookupJ args "path").getD (J.str "")

/-- The variables dict handed to both dispatches. -/
def mwVariables (request : ToolCallRequest) : List (String × String) :=
  [("TOOL_NAME", request.name), ("FILE", jToPyStr (mwFileVal request.args))]

/-- if pre_result.updated_input: merge the patch over the arguments — {} and
None are both falsy, so only a non-empty patch rewrites the args. -/
def applyInputPatch (request : ToolCallRequest) (patch : Option (List (String × J))) :
    ToolCallRequest :=
  match patch with
  | some m => if !m.isEmpty then { request with args := dictUpdate request.args m } else request
  | none => request

/-- interactive confirmation: answer.strip().lower() must be y or yes. -/
def askAnswerIsYes (answer : String) : Bool :=
  ["y", "yes"].contains (pyLower (pyStrip answer))

/-- The PreToolUse dispatch of wrap_tool_call: execute_hooks on the tool's
name with the middleware variables. -/
def mwPre (R : ReModel) (world : World) (jparse : JParse) (hooksCfg : HooksConfig)
    (request : ToolCallRequest) : HookResult :=
  (execute_hooks R world jparse hooksCfg "PreToolUse" request.name (mwVariables request)).1

/-- HooksMiddleware.wrap_tool_call from hooks/middleware.py.  The downstream
handler is modelled as a pure function into an opaque result type; the
interactive answer the user would type at the ask prompt is the askAnswer
parameter.  The returned pair carries the middleware's value (inl: a
denial ToolMessage minted by the middleware, inr: whatever the handler
returned) and the list of requests the handler was invoked on — the
invocation log.  Console printing of hook messages has no further effect
and is not represented. -/
def wrap_tool_call {α : Type} (R : ReModel) (world : World) (jparse : JParse)
    (hooksCfg : HooksConfig) (askAnswer : String)
    (handler : ToolCallRequest → α) (request : ToolCallRequest) :
    (ToolMessage ⊕ α) × List ToolCallRequest :=
  let vbls := mwVariables request
  let pre := mwPre R world jparse hooksCfg request
  if pre.permission = "deny" then
    (Sum.inl { content := "Tool call denied by hook.", tool_call_id := request.id }, [])
  else if pre.permission = "ask" && !askAnswerIsYes askAnswer then
    (Sum.inl { content := "Tool call denied by user.", tool_call_id := request.id }, [])
  else
    let request := applyInputPatch request pre.updated_input
    let result := handler request
    let post := (execute_hooks R world jparse hooksCfg "PostToolUse" request.name vbls).1
    let _ := post.messages
    (Sum.inr result, [request])

/-! ## Plugin loader — src/langcode/plugins/loader.py -/

mutual
/-- The per-key combination _deep_merge (plugins/loader.py) applies to the
existing value under a key and the override value: object with object
merges recursively, array with array concatenates, and otherwise the
override value wins. -/
def deepCombine : Option J → J → J
  | some (J.obj bo), J.obj oo => J.obj (deepMergeObj bo oo)
  | some (J.arr ba), J.arr oa => J.arr (ba ++ oa)
  | _, v => v
termination_by _e v => sizeOf v

/-- _deep_merge from plugins/loader.py: result starts as a copy of base and
each override item is assigned in order, combined per key with
deepCombine. -/
def deepMergeObj (base : List (String × J)) : List (String × J) → List (String × J)
  | [] => base
  | (k, v) :: rest => deepMergeObj (setKey base k (deepCombine (lookupJ base k) v)) rest
termination_by l => sizeOf l
end

/-- State of the manifest's hooks (or mcpServers) field as discovery sees
it: an inline object, a non-empty path string together with the referenced
file's state (missing, unparsable, or a parsed object), or an empty/other
value that discovery ignores. -/
inductive ManifestObjField where
  | inline (fields : List (String × J)) : ManifestObjField
  | pathRef (file : Option (Option (List (String × J)))) : ManifestObjField
  | absent : ManifestObjField

/-- The hook-config part of _discover_components (plugins/loader.py): start
from the conventional hooks/hooks.json sidecar when present and parsable
(else an empty dict), then _deep_merge the manifest's inline object or the
parsed manifest-referenced file on top; a missing or unparsable referenced
file leaves the base unchanged.  The sidecar argument mirrors the file
state: none = absent, some none = present but unparsable, some (some fs) =
parsed object.  The final ${CLAUDE_PLUGIN_ROOT} expansion is applied by the
caller and is independent of the merge. -/
def discoverHooksData (sidecar : Option (Option (List (String × J))))
    (mf : ManifestObjField) : List (String × J) :=
  let base :=
    match sidecar with
    | some (some fs) => fs
    | _ => []
  match mf with
  | ManifestObjField.inline fs => deepMergeObj base fs
  | ManifestObjField.pathRef (some (some fs)) => deepMergeObj base fs
  | ManifestObjField.pathRef _ => base
  | ManifestObjField.absent => base

/-- raw.get("mcpServers", raw.get("servers", {})) restricted to object
values (a non-object value would make the later dict.update raise, a shape
no claim exercises). -/
def extractServers (raw : List (String × J)) : List (String × J) :=
  match lookupJ raw "mcpServers" with
  | some (J.obj fs) => fs
  | _ =>
    match lookupJ raw "servers" with
    | some (J.obj fs) => fs
    | _ => []

/-- The tool-server part of _discover_components (plugins/loader.py): start
from the conventional .mcp.json sidecar's extracted server map, then fold
the manifest's inline object or the referenced file's extracted server map
on top with dict.update — a shallow, top-level-key merge. -/
def discoverMcpData (sidecar : Option (Option (List (String × J))))
    (mf : ManifestObjField) : List (String × J) :=
  let base :=
    match sidecar with
    | some (some raw) => extractServers raw
    | _ => []
  match mf with
  | ManifestObjField.inline fs => dictUpdate base fs
  | ManifestObjField.pathRef (some (some raw)) => dictUpdate base (extractServers raw)
  | ManifestObjField.pathRef _ => base
  | ManifestObjField.absent => base

/-- Modelled from the spec: the tool-server discovery as section 4.4 words
it — "start from the conventional sidecar file's contents if present, then
deep-merge ... the manifest's inline object or the contents of the
manifest-referenced file on top" — i.e. using _deep_merge rather than
dict.update.  Kept for comparison with discoverMcpData. -/
def specDiscoverMcpData (sidecar : Option (Option (List (String × J))))
    (mf : ManifestObjField) : List (String × J) :=
  let base :=
    match sidecar with
    | some (some raw) => extractServers raw
    | _ => []
  match mf with
  | ManifestObjField.inline fs => deepMergeObj base fs
  | ManifestObjField.pathRef (some (some raw)) => deepMergeObj base (extractServers raw)
  | ManifestObjField.pathRef _ => base
  | ManifestObjField.absent => base

/-- PluginManifest from plugins/models.py, the fields the claims touch.
The hooks and mcpServers manifest values are kept as raw JSON values, as
in the source (str | dict | list). -/
structure PluginManifest where
  name : String
  version : String := ""
  description : String := ""
  commands : List String := []
  agents : List String := []
  skills : List String := []
  hooks : J := J.str ""
  mcp_servers : J := J.str ""
deriving Repr

/-- The _to_list helper of _parse_manifest: a non-empty string becomes a
one-element list, a list is taken as is (restricted here to its string
elements — no claim involves non-string path specs), anything else is
empty. -/
def toListSpec (v : Option J) : List String :=
  match v with
  | some (J.str s) => if s ≠ "" then [s] else []
  | some (J.arr xs) =>
      xs.filterMap (fun x => match x with | J.str s => some s | _ => none)
  | _ => []

/-- Outcome of reading and json-parsing a file expected to hold a JSON
object: the file is absent, present but the read or parse raises
(OSError / json.JSONDecodeError), or parsed into an object's fields. -/
inductive ParseOutcome where
  | fileAbsent : ParseOutcome
  | parseError : ParseOutcome
  | parsed (fields : List (String × J)) : ParseOutcome

/-- _parse_manifest from plugins/loader.py: None when the file is absent or
unparsable or the name field is missing/empty, otherwise the manifest built
from the parsed object. -/
def parseManifest (outcome : ParseOutcome) : Option PluginManifest :=
  match outcome with
  | ParseOutcome.fileAbsent => none
  | ParseOutcome.parseError => none
  | ParseOutcome.parsed data =>
    let name := getStrD data "name" ""
    if name = "" then none
    else
      some
        { name := name
          version := getStrD data "version" ""
          description := getStrD data "description" ""
          commands := toListSpec (lookupJ data "commands")
          agents := toListSpec (lookupJ data "agents")
          skills := toListSpec (lookupJ data "skills")
          hooks := (lookupJ data "hooks").getD (J.str "")
          mcp_servers := (lookupJ data "mcpServers").getD (J.str "") }

/-- PluginComponents from plugins/models.py; directory lists are path
strings. -/
structure PluginComponents where
  command_dirs : List String := []
  skill_dirs : List String := []
  agent_dirs : List String := []
  hooks_config : List (String × J) := []
  mcp_servers : List (String × J) := []
deriving Repr

/-- Plugin from plugins/models.py, the fields load_plugin populates; the
error field is the empty string when unset, as in the source dataclass. -/
structure Plugin where
  name : String
  manifest : PluginManifest
  components : PluginComponents := {}
  source : String := ""
  marketplace : String := ""
  enabled : Bool := true
  error : String := ""
deriving Repr

/-- load_plugin from plugins/loader.py.  The filesystem is abstracted: the
directory's existence, the manifest file's parse outcome, and the result of
_discover_components (whose pure merging core is modelled above, and whose
filesystem walk may raise — the caught exception's text is the .error
value) are oracle inputs.  A missing directory and a discovery exception
produce a Plugin with the error field set; a missing or corrupted manifest
falls back to a default manifest named after the override or directory and
leaves the error field unset; no case raises. -/
def load_plugin (dirExists : Bool) (dirName : String) (name_override : String)
    (manifestOutcome : ParseOutcome) (discovery : Except String PluginComponents) : Plugin :=
  if !dirExists then
    let nm := if name_override ≠ "" then name_override else dirName
    { name := nm, manifest := { name := nm },
      error := "plugin directory not found: " ++ dirName }
  else
    let manifest :=
      match parseManifest manifestOutcome with
      | some m => m
      | none => { name := if name_override ≠ "" then name_override else dirName }
    let manifest :=
      if name_override ≠ "" then { manifest with name := name_override } else manifest
    match discovery with
    | Except.error e => { name := manifest.name, manifest := manifest, error := e }
    | Except.ok comps => { name := manifest.name, manifest := manifest, components := comps }

/-! ## Plugin lifecycle — src/langcode/plugins/lifecycle.py -/

/-- First-match lookup in a string-keyed boolean association list, the model
of key-in-dict plus indexing on config.enabled_plugins (dict[str, bool]). -/
def lookupBool (m : List (String × Bool)) (k : String) : Option Bool :=
  match m with
  | [] => none
  | (k', v) :: rest => if k' = k then some v else lookupBool rest k

/-- _is_plugin_enabled from plugins/lifecycle.py: consult name@marketplace
first (only when a marketplace is recorded — the empty string is falsy),
then the bare name, and default to enabled. -/
def is_plugin_enabled (enabled_plugins : List (String × Bool))
    (name marketplace : String) : Bool :=
  let key_full := if marketplace ≠ "" then name ++ "@" ++ marketplace else name
  match lookupBool enabled_plugins key_full with
  | some b => b
  | none =>
    match lookupBool enabled_plugins name with
    | some b => b
    | none => true

/-! ## Marketplace resolver — src/langcode/plugins/marketplace.py -/

/-- PluginEntry from plugins/marketplace.py (fields the claims touch). -/
structure PluginEntry where
  name : String
  source : J := J.str ""
  description : String := ""
  version : String := ""
deriving Repr

/-- A parsed marketplace.json (plugins/marketplace.py Marketplace,
without the local-path bookkeeping fields). -/
structure MarketplaceData where
  name : String
  plugins : List PluginEntry := []
  description : String := ""
deriving Repr

/-- _parse_marketplace_json from plugins/marketplace.py: None when the file
is absent, unreadable/unparsable, or the name field is missing or empty;
otherwise the marketplace with its dict-shaped, named plugin entries (other
entries are skipped).  A non-list plugins value is modelled as absent. -/
def parseMarketplaceJson (outcome : ParseOutcome) : Option MarketplaceData :=
  match outcome with
  | ParseOutcome.fileAbsent => none
  | ParseOutcome.parseError => none
  | ParseOutcome.parsed data =>
    let name := getStrD data "name" ""
    if name = "" then none
    else
      let plugins :=
        match lookupJ data "plugins" with
        | some (J.arr xs) =>
            xs.filterMap (fun entry =>
              match entry with
              | J.obj fs =>
                let pname := getStrD fs "name" ""
                if pname = "" then none
                else
                  some { name := pname,
                         source := (lookupJ fs "source").getD (J.str ""),
                         description := getStrD fs "description" "",
                         version := getStrD fs "version" "" }
              | _ => none)
        | _ => []
      let desc :=
        match lookupJ data "metadata" with
        | some (J.obj md) => getStrD md "description" ""
        | _ => ""
      some { name := name, plugins := plugins, description := desc }

/-- _is_github_ref from plugins/marketplace.py: a bare owner/repo — the
stripped source splits on "/" into exactly two non-empty segments neither
of which starts with "-", and the raw source neither starts with "." or "/"
nor contains a colon. -/
def isGithubRef (source : String) : Bool :=
  let parts := source.trim.splitOn "/"
  parts.length == 2
    && parts.all (fun p => p ≠ "" && !p.startsWith "-")
    && !source.startsWith "."
    && !source.startsWith "/"
    && !source.toList.contains ':'

/-- _is_git_url from plugins/marketplace.py. -/
def isGitUrl (source : String) : Bool :=
  source.endsWith ".git" || source.startsWith "git@"

/-- Registry-index entry for one marketplace (the value stored under the
marketplace's name in _marketplaces.json). -/
structure MarketRegInfo where
  source_type : String
  source_ref : String
deriving Repr, DecidableEq

/-- setKey for the registry-index association list. -/
def setReg (regs : List (String × MarketRegInfo)) (k : String) (v : MarketRegInfo) :
    List (String × MarketRegInfo) :=
  match regs with
  | [] => [(k, v)]
  | (k', v') :: rest => if k' = k then (k, v) :: rest else (k', v') :: setReg rest k v

/-- The on-disk state add_marketplace mutates: the registry-index file's
marketplaces map and the set of per-marketplace cache directories (each
cache entry modelled by its name; copytree replaces any prior content for
the same name). -/
structure MarketState where
  registry : List (String × MarketRegInfo)
  cache : List String
deriving Repr, DecidableEq

/-- A cache-entry write: the directory for the name now exists. -/
def cacheWrite (cache : List String) (name : String) : List String :=
  if cache.contains name then cache else cache ++ [name]

/-- _register_marketplace from plugins/marketplace.py: record
name → (source_type, source_ref) in the registry index. -/
def registerMarketplace (st : MarketState) (name : String) (info : MarketRegInfo) :
    MarketState :=
  { st with registry := setReg st.registry name info }

/-- Classification of an add_marketplace source by the filesystem: an
existing directory (with the state of any marketplace.json found in it), an
existing file named marketplace.json (with its parse state), or neither —
a candidate remote source. -/
inductive SourceKind where
  | localDir (mj : Option ParseOutcome) : SourceKind
  | localFile (contents : ParseOutcome) : SourceKind
  | notLocal : SourceKind

/-- add_marketplace from plugins/marketplace.py.  The filesystem and the
network are oracles: kind classifies the source path, cloneOk is whether
the shallow git clone of a remote source succeeds, and remoteMj is the
state of the marketplace.json found in the fresh clone (none = no
descriptor file).  Returns the parsed marketplace (None on failure) and the
post-state of the registry index and cache.  The unconditional mkdir of the
shared cache root directory has no per-marketplace effect and is not part
of the state. -/
def add_marketplace (kind : SourceKind) (cloneOk : Bool)
    (remoteMj : Option ParseOutcome) (source : String) (st : MarketState) :
    Option MarketplaceData × MarketState :=
  match kind with
  | SourceKind.localDir mj =>
    match mj with
    | none => (none, st)
    | some contents =>
      match parseMarketplaceJson contents with
      | none => (none, st)
      | some m =>
        let st := { st with cache := cacheWrite st.cache m.name }
        let st := registerMarketplace st m.name { source_type := "local", source_ref := source }
        (some m, st)
  | SourceKind.localFile contents =>
    match parseMarketplaceJson contents with
    | none => (none, st)
    | some m =>
      let st := { st with cache := cacheWrite st.cache m.name }
      let st := registerMarketplace st m.name { source_type := "local", source_ref := source }
      (some m, st)
  | SourceKind.notLocal =>
    if isGithubRef source || isGitUrl source then
      if !cloneOk then (none, st)
      else
        match remoteMj with
        | none => (none, st)
        | some contents =>
          match parseMarketplaceJson contents with
          | none => (none, st)
          | some m =>
            let st := { st with cache := cacheWrite st.cache m.name }
            let st := registerMarketplace st m.name
              { source_type := if isGithubRef source then "github" else "git",
                source_ref := source }
            (some m, st)
    else (none, st)

/-! ## Settings application — src/langcode/core/config.py -/

/-- The Config fields _apply_settings mutates. -/
structure ConfigModel where
  model : String := "anthropic:claude-sonnet-4-5-20250929"
  enabledPlugins : List (String × J) := []
  knownMarketplaces : List (String × J) := []
  hooks : HooksConfig := {}

/-- String-valued items of an object, for feeding a legacy hooks dict to
convert_legacy_hooks (legacy hook values are command strings). -/
def legacyPairs (fields : List (String × J)) : List (String × String) :=
  fields.filterMap (fun kv => match kv.2 with | J.str s => some (kv.1, s) | _ => none)

/-- _apply_settings from core/config.py.  The file's existence and the
json.loads outcome are inputs; crucially the source wraps json.loads in no
try/except, so a parse failure propagates to the caller of load_config —
modelled by the Except return.  On success the model key overwrites, the
enabledPlugins and extraKnownMarketplaces dicts update, and the hooks are
merged additively from whichever dialect the data matches. -/
def apply_settings (fileExists : Bool) (parse : Except String (List (String × J)))
    (cfg : ConfigModel) : Except String ConfigModel :=
  if !fileExists then Except.ok cfg
  else
    match parse with
    | Except.error e => Except.error e
    | Except.ok data =>
      let cfg :=
        match lookupJ data "model" with
        | some (J.str m) => { cfg with model := m }
        | _ => cfg
      let cfg :=
        match lookupJ data "enabledPlugins" with
        | some (J.obj fs) => { cfg with enabledPlugins := dictUpdate cfg.enabledPlugins fs }
        | _ => cfg
      let cfg :=
        match lookupJ data "extraKnownMarketplaces" with
        | some (J.obj fs) =>
            { cfg with knownMarketplaces := dictUpdate cfg.knownMarketplaces fs }
        | _ => cfg
      let hasEventKeys := HOOK_EVENTS.any (fun e => (lookupJ data e).isSome)
      if hasEventKeys then
        Except.ok { cfg with hooks := cfg.hooks.merge (parse_hooks_config data) }
      else
        match lookupJ data "hooks" with
        | some (J.obj hv) =>
          if HOOK_EVENTS.any (fun e => (lookupJ hv e).isSome) then
            Except.ok { cfg with hooks := cfg.hooks.merge (parse_hooks_config hv) }
          else
            Except.ok { cfg with hooks := cfg.hooks.merge (convert_legacy_hooks (legacyPairs hv)) }
        | _ => Except.ok cfg

/-! ## Concrete values used by witnesses and counterexamples -/

/-- A sample rule used in witnesses. -/
def ruleW : HookRule := { matcher := "Write" }

/-- A sample rule used in witnesses. -/
def ruleE : HookRule := { matcher := "Edit" }

/-! ## Claim theorems -/

/-- C3: for all hook registries A and B, merge(A, B) has, for every one of
the nine lifecycle events, the rule list A's rules followed by B's (pure
concatenation, so its length is the sum and no rule is replaced or
dropped), and merge is associative. -/
theorem C3_merge_concat_assoc (A B C : HooksConfig) :
    (∀ e, e ∈ HOOK_EVENTS →
      (A.merge B).get_rules e = A.get_rules e ++ B.get_rules e ∧
      ((A.merge B).get_rules e).length = (A.get_rules e).length + (B.get_rules e).length) ∧
    (A.merge B).merge C = A.merge (B.merge C) := by
  constructor
  · intro e he
    simp only [HOOK_EVENTS, List.mem_cons, List.not_mem_nil, or_false] at he
    rcases he with rfl | rfl | rfl | rfl | rfl | rfl | rfl | rfl | rfl <;>
      exact ⟨rfl, by simp [HooksConfig.merge, HooksConfig.get_rules]⟩
  · cases A; cases B; cases C
    simp [HooksConfig.merge, List.append_assoc]

/-- Witness for C3 at concrete registries and the PreToolUse event. -/
theorem C3_merge_concat_assoc_witness :
    (({ PreToolUse := [ruleW] } : HooksConfig).merge
        { PreToolUse := [ruleE] }).get_rules "PreToolUse" = [ruleW] ++ [ruleE] :=
  ((C3_merge_concat_assoc { PreToolUse := [ruleW] } { PreToolUse := [ruleE] } {}).1
    "PreToolUse" (by decide)).1

/-- C10 (amended only in presentation): the enabled check consults the
marketplace-qualified key first when a marketplace is recorded, then the
bare name key, and defaults to true; with no marketplace recorded only the
bare key is consulted. -/
theorem C10_enabled_precedence (ep : List (String × Bool)) (name mp : String) :
    (mp ≠ "" → ∀ b, lookupBool ep (name ++ "@" ++ mp) = some b →
      is_plugin_enabled ep name mp = b) ∧
    (mp ≠ "" → lookupBool ep (name ++ "@" ++ mp) = none → ∀ b,
      lookupBool ep name = some b → is_plugin_enabled ep name mp = b) ∧
    (lookupBool ep (name ++ "@" ++ mp) = none → lookupBool ep name = none →
      is_plugin_enabled ep name mp = true) ∧
    (mp = "" → ∀ b, lookupBool ep name = some b → is_plugin_enabled ep name mp = b) := by
  refine ⟨?_, ?_, ?_, ?_⟩
  · intro hmp b hfull
    simp [is_plugin_enabled, hmp, hfull]
  · intro hmp hfull b hbare
    simp [is_plugin_enabled, hmp, hfull, hbare]
  · intro hfull hbare
    by_cases hmp : mp = "" <;> simp_all [is_plugin_enabled]
  · intro hmp b hbare
    simp [is_plugin_enabled, hmp, hbare]

/-- Witness for C10: the qualified key wins over a conflicting bare key. -/
theorem C10_enabled_precedence_witness :
    is_plugin_enabled [("a@m", false), ("a", true)] "a" "m" = false :=
  (C10_enabled_precedence [("a@m", false), ("a", true)] "a" "m").1
    (by decide) false (by decide)

/-- C2 (amended): a rule fires iff its matcher is "*" (matching every
string, the empty string included), or the matcher compiles as a regex
whose search matches the value — case-SENSITIVELY, since the source calls
re.compile with no flags — or the matcher fails to compile and equals the
value literally. -/
theorem C2_rule_matching (R : ReModel) (m v : String) :
    ruleMatches R m v = true ↔
      m = "*" ∨ (∃ s, R.compile m = some s ∧ s v = true) ∨
        (R.compile m = none ∧ m = v) := by
  by_cases h : m = "*"
  · simp [ruleMatches, h]
  · cases hc : R.compile m <;> simp [ruleMatches, h, hc]

/-- Counterexample for C2 as stated: the matcher "bash" compiles, a
case-insensitive search of "bash" in "BASH" succeeds (the claim therefore
says the rule fires), yet HookRule.matches returns False because the
compiled pattern is searched case-sensitively. -/
theorem C2_rule_matching_counterexample :
    ruleMatches reLiteral "bash" "BASH" = false ∧
    (∃ s, reLiteral.compile "bash" = some s) ∧
    pySearchSubCI "bash" "BASH" = true := by
  exact ⟨by decide, ⟨fun w => pySearchSub "bash" w, rfl⟩, by decide⟩

/-- C5 (amended): the manifest and marketplace-descriptor parse boundaries
catch malformed JSON and report absent configuration (None), but
_apply_settings wraps json.loads in no handler, so a malformed settings
file propagates the parse error to the caller of config loading. -/
theorem C5_parse_boundaries (e : String) (cfg : ConfigModel) :
    parseManifest ParseOutcome.parseError = none ∧
    parseMarketplaceJson ParseOutcome.parseError = none ∧
    apply_settings true (Except.error e) cfg = Except.error e :=
  ⟨rfl, rfl, rfl⟩

/-- Counterexample for C5 as stated: a settings file whose contents are
malformed JSON makes _apply_settings propagate the json.loads error to the
caller instead of treating the file as absent configuration. -/
theorem C5_parse_boundaries_counterexample :
    apply_settings true (Except.error "Expecting value: line 1 column 1 (char 0)") {} =
      Except.error "Expecting value: line 1 column 1 (char 0)" := rfl

/-- C8: loading a plugin whose manifest JSON is corrupted returns a Plugin
with the error field unset and a manifest defaulting to the override or
directory name, while a discovery exception yields a Plugin whose error
field carries the exception text; load_plugin is total, so neither case
propagates. -/
theorem C8_load_plugin_errors (dirName ov : String) (comps : PluginComponents)
    (mp : ParseOutcome) (e : String) :
    (load_plugin true dirName ov ParseOutcome.parseError (Except.ok comps)).error = "" ∧
    (load_plugin true dirName ov ParseOutcome.parseError (Except.ok comps)).manifest.name =
      (if ov ≠ "" then ov else dirName) ∧
    (load_plugin true dirName ov mp (Except.error e)).error = e := by
  refine ⟨?_, ?_, ?_⟩ <;>
    · by_cases hov : ov = "" <;>
        cases mp <;>
          simp [load_plugin, parseManifest, hov]

/-- C7 (amended): hook-config discovery starts from the sidecar contents
and deep-merges the manifest's inline object or referenced file on top,
where _deep_merge combines per key (objects recurse, arrays concatenate,
scalars overwrite) and processes override keys left to right; tool-server
discovery, by contrast, folds the manifest object over the sidecar's
extracted server map with dict.update — a shallow top-level merge, not a
deep one. -/
theorem C7_discovery_merge :
    (∀ b k v, deepMergeObj b [(k, v)] = setKey b k (deepCombine (lookupJ b k) v)) ∧
    (∀ b o1 o2, deepMergeObj b (o1 ++ o2) = deepMergeObj (deepMergeObj b o1) o2) ∧
    (∀ base mfh, discoverHooksData (some (some base)) (ManifestObjField.inline mfh) =
      deepMergeObj base mfh) ∧
    (∀ base fileFs, discoverHooksData (some (some base))
        (ManifestObjField.pathRef (some (some fileFs))) = deepMergeObj base fileFs) ∧
    (∀ base mfm, discoverMcpData (some (some base)) (ManifestObjField.inline mfm) =
      dictUpdate (extractServers base) mfm) := by
  refine ⟨?_, ?_, ?_, ?_, ?_⟩
  · intro b k v
    simp [deepMergeObj]
  · intro b o1 o2
    induction o1 generalizing b with
    | nil => simp [deepMergeObj]
    | cons kv t ih =>
      obtain ⟨k, v⟩ := kv
      simp [deepMergeObj, ih]
  · intro base mfh; rfl
  · intro base fileFs; rfl
  · intro base mfm; rfl

/-- Example .mcp.json sidecar contents for the C7 counterexample. -/
def mcpSidecarEx : List (String × J) :=
  [("mcpServers", J.obj [("a", J.obj [("x", J.num 1), ("y", J.num 2)])])]

/-- Example manifest inline mcpServers object for the C7 counterexample. -/
def mcpInlineEx : List (String × J) := [("a", J.obj [("x", J.num 9)])]

/-- Counterexample for C7 as stated: with a sidecar server "a" of
{x: 1, y: 2} and a manifest inline override {a: {x: 9}}, dict.update
discards y entirely while the deep merge the claim asserts would keep it —
the discovered tool-server config is not the deep merge. -/
theorem C7_discovery_merge_counterexample :
    discoverMcpData (some (some mcpSidecarEx)) (ManifestObjField.inline mcpInlineEx) =
      [("a", J.obj [("x", J.num 9)])] ∧
    specDiscoverMcpData (some (some mcpSidecarEx)) (ManifestObjField.inline mcpInlineEx) =
      [("a", J.obj [("x", J.num 9), ("y", J.num 2)])] ∧
    discoverMcpData (some (some mcpSidecarEx)) (ManifestObjField.inline mcpInlineEx) ≠
      specDiscoverMcpData (some (some mcpSidecarEx)) (ManifestObjField.inline mcpInlineEx) := by
  have hc : discoverMcpData (some (some mcpSidecarEx)) (ManifestObjField.inline mcpInlineEx) =
      [("a", J.obj [("x", J.num 9)])] := by
    simp [discoverMcpData, mcpSidecarEx, mcpInlineEx, extractServers, dictUpdate,
      setKey, lookupJ]
  have hs : specDiscoverMcpData (some (some mcpSidecarEx)) (ManifestObjField.inline mcpInlineEx) =
      [("a", J.obj [("x", J.num 9), ("y", J.num 2)])] := by
    simp [specDiscoverMcpData, mcpSidecarEx, mcpInlineEx, extractServers, deepMergeObj,
      deepCombine, setKey, lookupJ]
  refine ⟨hc, hs, ?_⟩
  rw [hc, hs]
  simp

/-- C6: for a remote marketplace source, the registry index and the cache
are modified only when the clone succeeds and the cloned tree contains a
descriptor that parses; a failed clone, a clone with no descriptor file,
and an unparsable descriptor all leave the state untouched and return no
marketplace. -/
theorem C6_add_marketplace_remote (source : String) (st : MarketState)
    (cloneOk : Bool) (remoteMj : Option ParseOutcome) :
    (cloneOk = false →
      add_marketplace SourceKind.notLocal cloneOk remoteMj source st = (none, st)) ∧
    (remoteMj = none →
      add_marketplace SourceKind.notLocal cloneOk remoteMj source st = (none, st)) ∧
    (∀ contents, remoteMj = some contents → parseMarketplaceJson contents = none →
      add_marketplace SourceKind.notLocal cloneOk remoteMj source st = (none, st)) ∧
    ((add_marketplace SourceKind.notLocal cloneOk remoteMj source st).2 ≠ st →
      cloneOk = true ∧ ∃ contents m, remoteMj = some contents ∧
        parseMarketplaceJson contents = some m) := by
  refine ⟨?_, ?_, ?_, ?_⟩
  · intro h
    subst h
    by_cases hg : (isGithubRef source || isGitUrl source) = true <;>
      simp [add_marketplace, hg]
  · intro h
    subst h
    by_cases hg : (isGithubRef source || isGitUrl source) = true <;>
      cases cloneOk <;> simp [add_marketplace, hg]
  · intro contents h hp
    subst h
    by_cases hg : (isGithubRef source || isGitUrl source) = true <;>
      cases cloneOk <;> simp [add_marketplace, hg, hp]
  · intro hne
    by_cases hg : (isGithubRef source || isGitUrl source) = true
    · cases hc : cloneOk
      · exact absurd (by simp [add_marketplace, hg, hc]) hne
      · cases hmj : remoteMj with
        | none => exact absurd (by simp [add_marketplace, hg, hc, hmj]) hne
        | some contents =>
          cases hp : parseMarketplaceJson contents with
          | none => exact absurd (by simp [add_marketplace, hg, hc, hmj, hp]) hne
          | some m => exact ⟨rfl, contents, m, rfl, hp⟩
    · exact absurd (by simp [add_marketplace, hg]) hne

/-- Witness for C6: a GitHub source that clones successfully but has no
descriptor file returns no marketplace and leaves an empty state empty. -/
theorem C6_add_marketplace_remote_witness :
    add_marketplace SourceKind.notLocal true none "owner/repo"
      { registry := [], cache := [] } = (none, { registry := [], cache := [] }) :=
  (C6_add_marketplace_remote "owner/repo" { registry := [], cache := [] } true none).2.1 rfl

/-- pyStrip of the empty string, used when folding failed-spawn output. -/
theorem pyStrip_empty : pyStrip "" = "" := rfl

/-! ## Concrete oracles for the engine and middleware scenarios -/

/-- A world in which every spawn attempt times out. -/
def worldTimesOut : World := fun _ => SubprocessBehavior.timesOut

/-- A json.loads oracle for runs whose stdout is never JSON. -/
def jparseNone : JParse := fun _ => none

/-- A slow command hook (as in the repository's own timeout test). -/
def hookSleep : HookDef := { type := "command", command := "sleep 60", timeout := 1 }

/-- A config with one match-all PreToolUse rule around hookSleep. -/
def cfgTimeout : HooksConfig :=
  { PreToolUse := [{ matcher := "*", hooks := [hookSleep] }] }

/-- The confirm-sentinel hook. -/
def hookConfirm : HookDef := { type := "command", command := "__confirm__" }

/-- A hook whose command prints a permission-allow protocol document. -/
def hookEmitAllow : HookDef := { type := "command", command := "emit-allow" }

/-- The JSON text such a command prints. -/
def allowJsonOut : String :=
  "\x7b\"hookSpecificOutput\": \x7b\"permissionDecision\": \"allow\"\x7d\x7d"

/-- json.loads modelled at allowJsonOut (its value on that input, per the
JSON grammar); other inputs are irrelevant to the scenario and map to a
parse failure. -/
def jparseAllow : JParse := fun s =>
  if s = allowJsonOut then
    some [("hookSpecificOutput", J.obj [("permissionDecision", J.str "allow")])]
  else none

/-- A world in which the emit-allow command prints allowJsonOut and exits 0. -/
def worldEmitAllow : World := fun cmd =>
  if cmd = "emit-allow" then SubprocessBehavior.completes 0 allowJsonOut ""
  else SubprocessBehavior.timesOut

/-- A rule firing the sentinel and then the allow-emitting hook. -/
def cfgConfirmThenAllow : HooksConfig :=
  { PreToolUse := [{ matcher := "*", hooks := [hookConfirm, hookEmitAllow] }] }

/-- The registry that convert_legacy_hooks builds from the legacy config
with a single "pre:Bash" -> "confirm" item. -/
def cfgLegacyConfirm : HooksConfig :=
  { PreToolUse := [{ matcher := "Bash", hooks := [hookConfirm] }] }

/-- A hook whose command prints a permission-deny protocol document. -/
def hookEmitDeny : HookDef := { type := "command", command := "emit-deny" }

/-- The JSON text such a command prints. -/
def denyJsonOut : String :=
  "\x7b\"hookSpecificOutput\": \x7b\"permissionDecision\": \"deny\"\x7d\x7d"

/-- json.loads modelled at denyJsonOut. -/
def jparseDeny : JParse := fun s =>
  if s = denyJsonOut then
    some [("hookSpecificOutput", J.obj [("permissionDecision", J.str "deny")])]
  else none

/-- A world in which the emit-deny command prints denyJsonOut and exits 0. -/
def worldEmitDeny : World := fun cmd =>
  if cmd = "emit-deny" then SubprocessBehavior.completes 0 denyJsonOut ""
  else SubprocessBehavior.timesOut

/-- A config with one match-all PreToolUse rule around hookEmitDeny. -/
def cfgDeny : HooksConfig :=
  { PreToolUse := [{ matcher := "*", hooks := [hookEmitDeny] }] }

/-- A sample tool call. -/
def reqEx : ToolCallRequest := { name := "Bash", args := [], id := "call1" }

/-- C4 (amended): a timeout or spawn failure is caught inside
run_command_hook, which returns exit code -1, empty stdout, and the error
text as stderr; processing such a hook leaves the outcome entirely
unchanged — in particular the permission keeps its prior value, and, since
stderr is surfaced only at exit code 2 and stdout is empty, the error text
is NOT appended to messages — while the spawn is still logged; nothing is
raised (the engine is total). -/
theorem C4_hook_failure_contained (world : World) (jparse : JParse)
    (vars : List (String × String)) (hook : HookDef) (st : HookResult × List String) :
    (world (substituteVars hook.command vars) = SubprocessBehavior.timesOut →
      run_command_hook world hook vars = (-1, "", "hook timed out")) ∧
    (∀ e, world (substituteVars hook.command vars) = SubprocessBehavior.raisesError e →
      run_command_hook world hook vars = (-1, "", e)) ∧
    (hook.type = "command" → hook.command ≠ "__confirm__" →
      (world (substituteVars hook.command vars) = SubprocessBehavior.timesOut ∨
        (∃ e, world (substituteVars hook.command vars) = SubprocessBehavior.raisesError e)) →
      execHook world jparse vars st hook = (st.1, st.2 ++ [substituteVars hook.command vars])) := by
  refine ⟨?_, ?_, ?_⟩
  · intro hw
    simp [run_command_hook, hw]
  · intro e hw
    simp [run_command_hook, hw]
  · intro ht hc hw
    rcases hw with hw | ⟨e, hw⟩ <;>
      simp [execHook, ht, hc, run_command_hook, hw, parseHookOutput, pyStrip_empty]

/-- Witness for C4 at the repository's own timeout scenario. -/
theorem C4_hook_failure_contained_witness :
    execHook worldTimesOut jparseNone [] ({}, []) hookSleep = ({}, ["sleep 60"]) := by
  have h :=
    (C4_hook_failure_contained worldTimesOut jparseNone [] hookSleep ({}, [])).2.2
      rfl (by decide) (Or.inl rfl)
  simpa using h

/-- Counterexample for C4 as stated: with every spawn timing out, the
dispatch outcome's messages list stays empty — the error text
"hook timed out" (returned as stderr with exit code -1) is not appended —
although the claim asserts it is. -/
theorem C4_hook_failure_contained_counterexample :
    run_command_hook worldTimesOut hookSleep [] = (-1, "", "hook timed out") ∧
    (execute_hooks reLiteral worldTimesOut jparseNone cfgTimeout
        "PreToolUse" "Bash" []).1.messages = [] ∧
    (execute_hooks reLiteral worldTimesOut jparseNone cfgTimeout
        "PreToolUse" "Bash" []).1.permission = "allow" := by
  exact ⟨rfl, by decide, by decide⟩

/-- C9 (amended): processing a firing command hook whose command is the
reserved confirm sentinel sets the outcome's permission to "ask", spawns
no subprocess (the spawn log is untouched) and changes nothing else; a
later firing hook may still overwrite the permission, but in the legacy
scenario config {"pre:Bash": "confirm"} — whose only firing hook is the
sentinel — the PreToolUse dispatch on "Bash" returns permission "ask" with
an empty spawn log, whatever the subprocess world. -/
theorem C9_confirm_sentinel (world : World) (jparse : JParse)
    (vars : List (String × String)) (st : HookResult × List String) (hook : HookDef) :
    (hook.type = "command" → hook.command = "__confirm__" →
      execHook world jparse vars st hook = ({ st.1 with permission := "ask" }, st.2)) ∧
    (∀ vars2, execute_hooks reLiteral world jparse
        (convert_legacy_hooks [("pre:Bash", "confirm")]) "PreToolUse" "Bash" vars2 =
      (({ permission := "ask" } : HookResult), ([] : List String))) := by
  constructor
  · intro ht hc
    simp [execHook, ht, hc]
  · intro vars2
    have hcfg : convert_legacy_hooks [("pre:Bash", "confirm")] = cfgLegacyConfirm := rfl
    have hm : ruleMatches reLiteral "Bash" "Bash" = true := by decide
    rw [hcfg]
    simp [cfgLegacyConfirm, hookConfirm, execute_hooks, HooksConfig.get_rules, execRule,
      hm, execHook]

/-- Witness for C9: the sentinel hook processed on the default state. -/
theorem C9_confirm_sentinel_witness :
    execHook worldTimesOut jparseNone [] ({}, []) hookConfirm =
      ({ permission := "ask" }, []) := by
  have h := (C9_confirm_sentinel worldTimesOut jparseNone [] ({}, []) hookConfirm).1 rfl rfl
  simpa using h

/-- Counterexample for C9 as stated: a dispatch whose firing rule runs the
confirm sentinel and then a hook that prints a permissionDecision-allow
protocol document ends with permission "allow", not "ask", even though a
firing command hook's command equals the sentinel; the spawn log confirms
the sentinel itself spawned nothing. -/
theorem C9_confirm_sentinel_counterexample :
    (execute_hooks reLiteral worldEmitAllow jparseAllow cfgConfirmThenAllow
        "PreToolUse" "Bash" []).1.permission = "allow" ∧
    (execute_hooks reLiteral worldEmitAllow jparseAllow cfgConfirmThenAllow
        "PreToolUse" "Bash" []).2 = ["emit-allow"] := by
  exact ⟨by decide, by decide⟩

/-- C1: for every tool call, a deny verdict from the PreToolUse dispatch
short-circuits with the middleware's denial ToolMessage and the handler is
never invoked; an ask verdict answered no likewise short-circuits; on
allow — or ask answered yes — the handler is invoked exactly once, on the
request with the dispatch's input patch merged into its arguments, the
middleware returns exactly the handler's result, and the PostToolUse rules
have no effect on the returned result. -/
theorem C1_wrap_tool_call {α : Type} (R : ReModel) (world : World) (jparse : JParse)
    (cfg : HooksConfig) (ask : String) (handler : ToolCallRequest → α)
    (req : ToolCallRequest) :
    ((mwPre R world jparse cfg req).permission = "deny" →
      wrap_tool_call R world jparse cfg ask handler req =
        (Sum.inl { content := "Tool call denied by hook.", tool_call_id := req.id }, [])) ∧
    ((mwPre R world jparse cfg req).permission = "ask" → askAnswerIsYes ask = false →
      wrap_tool_call R world jparse cfg ask handler req =
        (Sum.inl { content := "Tool call denied by user.", tool_call_id := req.id }, [])) ∧
    (((mwPre R world jparse cfg req).permission = "allow" ∨
        ((mwPre R world jparse cfg req).permission = "ask" ∧ askAnswerIsYes ask = true)) →
      wrap_tool_call R world jparse cfg ask handler req =
        (Sum.inr (handler (applyInputPatch req (mwPre R world jparse cfg req).updated_input)),
          [applyInputPatch req (mwPre R world jparse cfg req).updated_input])) ∧
    (∀ postRules,
      (wrap_tool_call R world jparse { cfg with PostToolUse := postRules } ask handler req).1 =
        (wrap_tool_call R world jparse cfg ask handler req).1) := by
  refine ⟨?_, ?_, ?_, ?_⟩
  · intro hp
    simp [wrap_tool_call, hp]
  · intro hp hask
    simp [wrap_tool_call, hp, hask]
  · intro hp
    rcases hp with hp | ⟨hp, hask⟩
    · simp [wrap_tool_call, hp]
    · simp [wrap_tool_call, hp, hask]
  · intro postRules
    simp [wrap_tool_call, mwPre, execute_hooks, HooksConfig.get_rules]

/-- Witness for C1: a hook that emits a deny decision makes the middleware
return its denial message without invoking the handler. -/
theorem C1_wrap_tool_call_witness :
    wrap_tool_call reLiteral worldEmitDeny jparseDeny cfgDeny "y"
      (fun _ => (0 : Nat)) reqEx =
    (Sum.inl { content := "Tool call denied by hook.", tool_call_id := "call1" }, []) := by
  have h :=
    (C1_wrap_tool_call reLiteral worldEmitDeny jparseDeny cfgDeny "y"
      (fun _ => (0 : Nat)) reqEx).1
  exact h (by decide)

end Langcode
